import Mathlib

/-!
Throughput harness for a resumable stream source (`main.go`)

A shallow embedding of `main.go`.  The program talks to four collaborators that
are not part of the repository: the connector SDK source (`Open`, `ReadN`,
`Teardown`, `ParseConfig`), the shell script run by `writeRecords`, the clock,
and `strconv.Atoi`.  The first three are oracles collected in `World`; every
call the program makes and every line it prints is recorded as an `Event`, so
that statements about "what the run does" are statements about the trace.
`strconv.Atoi` is modelled after the Go standard library (64-bit `int`).
-/

namespace Harness

/-! ## Data model -/

/-- The type `opencdc.Position` is a byte slice; `none` is the nil slice. -/
abbrev Position := Option (List Nat)

/-- The type `opencdc.Record`: only the position is inspected by the program; `id`
stands for the rest of the record. -/
structure Record where
  Position : Option (List Nat)
  id : Nat
deriving DecidableEq, Repr

/-- Which of the two sentinel errors a `*strconv.NumError` carries. -/
inductive NumErrKind
  | invalid      -- strconv.ErrSyntax
  | outOfRange   -- strconv.ErrRange
deriving DecidableEq, Repr

/-- Go `error` values met by the program, one constructor per dynamic type. An
`error` variable is an `Option Error`, `none` being the nil interface. Two
non-nil errors of different dynamic types are never equal. -/
inductive Error
  /-- A `*strconv.NumError` returned by `strconv.Atoi`. -/
  | numError (func num : String) (kind : NumErrKind)
  /-- Error returned by `cmd.CombinedOutput`. -/
  | execError (code : Nat)
  /-- Error returned by the connector (`ParseConfig`, `Open`, `ReadN`, `Teardown`). -/
  | sourceError (code : Nat)
  /-- An `*errors.errorString` built by `fmt.Errorf(format, cause, detail)` (no `%w`). -/
  | errorf (format : String) (cause : Error) (detail : String)
deriving DecidableEq, Repr

/-- Result of a `float64` division `float64(n) / d.Seconds()` where `d ≥ 0` is a
duration in nanoseconds, and of `math.Round` applied to it. Finite values are
kept symbolic (their operands); the IEEE-754 special values are explicit. -/
inductive F64
  | ofInt (n : Int)
  | nan
  | inf (neg : Bool)
  | quot (num : Int) (nanos : Nat)
  | roundQuot (num : Int) (nanos : Nat)
deriving DecidableEq, Repr

/-- The quotient `float64(num) / d.Seconds()` for a duration of `nanos`
nanoseconds. Go does not trap a floating-point division by zero: `0/0` is NaN
and `x/0` is an infinity. -/
def fdiv (num : Int) (nanos : Nat) : F64 :=
  if nanos = 0 then
    if num = 0 then .nan else .inf (decide (num < 0))
  else .quot num nanos

/-- The function `math.Round`; NaN and the infinities are returned as they are. -/
def mathRound : F64 → F64
  | .quot n d => .roundQuot n d
  | x => x

/-- A finite floating-point value. -/
def F64.isFinite : F64 → Bool
  | .nan => false
  | .inf _ => false
  | _ => true

/-- Everything the run does that is visible from outside: calls to the
collaborators and printed lines. -/
inductive Event
  /-- Line `fmt.Printf("creating new position %v\n", pos)`. -/
  | creatingNewPosition (pos : Position)
  /-- Line `fmt.Println("opening the connector")`. -/
  | openingTheConnector
  /-- Call `src.Open(ctx, pos)`. -/
  | srcOpen (pos : Position)
  /-- Call `src.ReadN(ctx, n)`. -/
  | readN (n : Int)
  /-- Call `src.Teardown(ctx)`. -/
  | srcTeardown
  /-- Line `fmt.Printf("error tearing down: %v", teardownErr)` in the deferred function. -/
  | errorTearingDown (e : Error)
  /-- Line `fmt.Printf("Running script to insert %s records...\n", recordsToInsert)`. -/
  | runningScript (recordsToInsert : String)
  /-- Call `exec.Command("/bin/bash", scriptPath, recordsToInsert).CombinedOutput()`. -/
  | execScript (scriptPath recordsToInsert : String)
  /-- Line `fmt.Printf("Script output:\n%s\n", string(output))`. -/
  | scriptOutput (output : String)
  /-- Line `fmt.Printf("Error executing script: %v\n", err)`. -/
  | errorExecutingScript (err : Option Error)
  /-- Line `fmt.Printf("Insertion completed in %v (%.2f records/second)\n", ...)`. -/
  | insertionCompleted (insertDuration : Nat) (insertRate : F64)
  /-- Line `fmt.Println("Starting to read records...")`. -/
  | startingToReadRecords
  /-- Line `fmt.Printf("total count: %v, elapsed: %v, rate: %v/s\n", i, elapsed, rate)`. -/
  | totalCount (i : Int) (elapsed : Nat) (rate : F64)
  /-- Line `fmt.Println("duration:", duration)`. -/
  | duration (d : Nat)
  /-- The three lines after `Performance Summary:`: total records read, total
  read duration, read rate. -/
  | performanceSummary (totalRecordsRead : Int) (duration : Nat) (readRate : F64)
deriving DecidableEq, Repr

/-- The value a Go panic carries. -/
inductive PanicValue
  | err (e : Error)
  | indexOutOfRange (index len : Nat)
deriving DecidableEq, Repr

/-- Ways a run stops other than by returning from `main`. -/
inductive Abort
  /-- Call `os.Exit(code)`: deferred functions do not run. -/
  | exit (code : Nat)
  /-- Call `panic(v)`: deferred functions run, then the process exits with code 2. -/
  | panic (v : PanicValue)
  /-- The last `ReadN` call has not returned (the scripted reads are used up). -/
  | blocked
deriving DecidableEq, Repr

/-- A piece of the run: the events it produced and how it ended. -/
structure Step (α : Type) where
  trace : List Event
  result : Except Abort α

/-- Sequencing: the second piece runs only if the first returned. -/
def Step.andThen {α β : Type} (s : Step α) (f : α → Step β) : Step β :=
  match s.result with
  | .ok a => ⟨s.trace ++ (f a).trace, (f a).result⟩
  | .error e => ⟨s.trace, .error e⟩

/-- Exit code of the process, when it ends. A run returning from `main` exits
with 0, a panic exits with 2. -/
def exitCode {α : Type} : Except Abort α → Option Nat
  | .ok _ => some 0
  | .error (.exit c) => some c
  | .error (.panic _) => some 2
  | .error .blocked => none

/-- The collaborators of one run. Calls are numbered from 0 in program order
at each call site family (`newSource` 0 and 1, `insertRows` 0 and 1,
`Teardown` 0 and 1). -/
structure World where
  /-- The slice `os.Args`. -/
  args : List String
  /-- Result of `sdk.Util.ParseConfig` in the `k`-th `newSource`. -/
  parseConfig : Nat → Option Error
  /-- Result of `src.Open(ctx, pos)` in the `k`-th `newSource`. -/
  openResult : Nat → Position → Option Error
  /-- Result of `cmd.CombinedOutput()` in the `k`-th `writeRecords`, given the
  argument passed to the script. -/
  combinedOutput : Nat → String → String × Option Error
  /-- Value of `time.Since(insertStartTime)` in the `k`-th `writeRecords`, in ns. -/
  insertDuration : Nat → Nat
  /-- Result of the bootstrap `src.ReadN(ctx, 1)`. -/
  bootstrapRead : List Record × Option Error
  /-- Result of the `k`-th `src.Teardown(ctx)`. -/
  teardown : Nat → Option Error
  /-- Results of the successive `ReadN` calls of the drain loop. -/
  reads : List (List Record × Option Error)
  /-- Value of `time.Since(start)` in the `k`-th iteration of the drain loop, in ns. -/
  sinceStart : Nat → Nat
  /-- Value of `time.Now().Sub(start)` after the drain loop, in ns. -/
  duration : Nat

/-! ## `strconv.Atoi` (Go standard library, 64-bit `int`) -/

/-- The constant `1<<64 - 1`. -/
def maxUint64 : Nat := 2 ^ 64 - 1

/-- The digit loop of `strconv.ParseUint(s, 10, 64)`: a character that is not
a decimal digit is a format error; an overflow is reported as soon as it
happens, before the rest of the string is looked at. -/
def parseUintLoop : List Char → Nat → Except NumErrKind Nat
  | [], n => .ok n
  | c :: cs, n =>
    if c.isDigit then
      if n ≥ maxUint64 / 10 + 1 then .error .outOfRange
      else if n * 10 + (c.toNat - 48) > maxUint64 then .error .outOfRange
      else parseUintLoop cs (n * 10 + (c.toNat - 48))
    else .error .invalid

/-- The function `strconv.ParseUint(s, 10, 64)` on the characters of `s`. -/
def ParseUint (s : List Char) : Nat × Option NumErrKind :=
  if s = [] then (0, some .invalid)
  else match parseUintLoop s 0 with
    | .ok n => (n, none)
    | .error .outOfRange => (maxUint64, some .outOfRange)
    | .error .invalid => (0, some .invalid)

/-- The function `strconv.Atoi(s)`, which is `ParseInt(s, 10, 0)` converted to `int`. -/
def Atoi (s : String) : Int × Option Error :=
  let s0 := s.toList
  if s0 = [] then (0, some (.numError "Atoi" s .invalid))
  else
    let neg := s0.head? = some '-'
    let body := if s0.head? = some '+' ∨ s0.head? = some '-' then s0.tail else s0
    match ParseUint body with
    | (_, some .invalid) => (0, some (.numError "Atoi" s .invalid))
    | (un, _) =>
      if ¬ neg ∧ un ≥ 2 ^ 63 then ((2 : Int) ^ 63 - 1, some (.numError "Atoi" s .outOfRange))
      else if neg ∧ un > 2 ^ 63 then (-(2 : Int) ^ 63, some (.numError "Atoi" s .outOfRange))
      else (if neg then -(un : Int) else (un : Int), none)

/-! ## The program -/

def defaultBatchSize : Int := 10000

def defaultRecordsToInsert : Int := 1000000

/-- The value of `fmt.Sprintf("%d", defaultRecordsToInsert)`. -/
def defaultRecordsToInsertStr : String := "1000000"

/-- The function `newSource(ctx, pos)`, called for the `k`-th time. -/
def newSource (w : World) (k : Nat) (pos : Position) : Step Unit :=
  match w.parseConfig k with
  | some e =>
    ⟨[.creatingNewPosition pos],
      .error (.panic (.err (.errorf "error parsing config: %v" e "")))⟩
  | none =>
    match w.openResult k pos with
    | some e =>
      ⟨[.creatingNewPosition pos, .openingTheConnector, .srcOpen pos],
        .error (.panic (.err (.errorf "error opening source: %v" e "")))⟩
    | none =>
      ⟨[.creatingNewPosition pos, .openingTheConnector, .srcOpen pos], .ok ()⟩

/-- The function `writeRecords(scriptPath, recordsToInsert)`, called for the
`k`-th time: events, then `(insertDuration, insertRate, err)`. -/
def writeRecords (w : World) (k : Nat) (scriptPath recordsToInsert : String) :
    List Event × (Nat × F64 × Option Error) :=
  match w.combinedOutput k recordsToInsert with
  | (output, some err) =>
    ([.execScript scriptPath recordsToInsert],
      (0, .ofInt 0, some (.errorf "error executing script: %v\nOutput: %s" err output)))
  | (output, none) =>
    let insertDuration := w.insertDuration k
    let insertRate :=
      match Atoi recordsToInsert with
      | (insertCount, none) => fdiv insertCount insertDuration
      | (_, some _) => .ofInt 0
    ([.execScript scriptPath recordsToInsert, .scriptOutput output],
      (insertDuration, insertRate, none))

/-- The function `insertRows(recordsToInsert)`, called for the `k`-th time.
The second result of `strconv.Atoi` is bound to a local variable named `nil`,
which shadows the predeclared `nil` in the rest of the function: the test
`err != nil` compares the error of `writeRecords` with the error of `Atoi`. -/
def insertRows (w : World) (k : Nat) (recordsToInsert : String) : Step Int :=
  let (recordsToInsertInt, nil_) := Atoi recordsToInsert
  let scriptPath := "./scripts/insert_named_employees.sh"
  let (events, insertDuration, insertRate, err) := writeRecords w k scriptPath recordsToInsert
  if err ≠ nil_ then
    ⟨[.runningScript recordsToInsert] ++ events ++ [.errorExecutingScript err],
      .error (.exit 1)⟩
  else
    ⟨[.runningScript recordsToInsert] ++ events ++
        [.insertionCompleted insertDuration insertRate],
      .ok recordsToInsertInt⟩

/-- The loop `for i := 0; i < recordsToInsertInt; { ... }` of `main`, entered
at iteration `k` with counter `i` and the reads still to come; it returns the
counter on exit. The counter is not wrapped at `2^63`: it counts records that
were really read. -/
def drainLoop (w : World) (recordsToInsertInt : Int) :
    List (List Record × Option Error) → Nat → Int → Step Int
  | [], _, i =>
    if i < recordsToInsertInt then ⟨[.readN defaultRecordsToInsert], .error .blocked⟩
    else ⟨[], .ok i⟩
  | (recs, err) :: rest, k, i =>
    if i < recordsToInsertInt then
      match err with
      | some e =>
        ⟨[.readN defaultRecordsToInsert],
          .error (.panic (.err (.errorf "error reading from source: %v" e "")))⟩
      | none =>
        let progress : List Event :=
          if Int.tmod i (10 * defaultBatchSize) = 0 then
            [.totalCount i (w.sinceStart k) (mathRound (fdiv i (w.sinceStart k)))]
          else []
        let next := drainLoop w recordsToInsertInt rest (k + 1) (i + (recs.length : Int))
        ⟨[.readN defaultRecordsToInsert] ++ progress ++ next.trace, next.result⟩
    else ⟨[], .ok i⟩

/-- The deferred function of `main`: it runs when the body returns or panics,
not when the body never ends; a teardown error is printed and nothing else. -/
def withDeferredTeardown (w : World) (body : Step Unit) : Step Unit :=
  match body.result with
  | .error (.exit c) => ⟨body.trace, .error (.exit c)⟩
  | .error .blocked => ⟨body.trace, .error .blocked⟩
  | r =>
    match w.teardown 1 with
    | some teardownErr => ⟨body.trace ++ [.srcTeardown, .errorTearingDown teardownErr], r⟩
    | none => ⟨body.trace ++ [.srcTeardown], r⟩

/-- The part of `main` from `fmt.Println("Starting to read records...")` to
the end of the summary. -/
def measureReads (w : World) (recordsToInsertInt : Int) : Step Unit :=
  (⟨[.startingToReadRecords], .ok ()⟩ : Step Unit).andThen fun _ =>
  (drainLoop w recordsToInsertInt w.reads 0 0).andThen fun _ =>
  let duration := w.duration
  let recordsPerSecond := fdiv recordsToInsertInt duration
  ⟨[.duration duration, .performanceSummary recordsToInsertInt duration recordsPerSecond],
    .ok ()⟩

/-- The value of the variable `recordsToInsert` of `main`: `os.Args[1]` when
present, the default otherwise. -/
def recordsToInsertArg (w : World) : String :=
  if w.args.length > 1 then w.args.getD 1 "" else defaultRecordsToInsertStr

/-- The part of `main` after the bootstrap teardown. -/
def resume (w : World) (position : Position) : Step Unit :=
  let recordsToInsert := recordsToInsertArg w
  (insertRows w 1 recordsToInsert).andThen fun recordsToInsertInt =>
  (newSource w 1 position).andThen fun _ =>
  withDeferredTeardown w (measureReads w recordsToInsertInt)

/-- The function `main`. -/
def main (w : World) : Step Unit :=
  (newSource w 0 none).andThen fun _ =>
  (insertRows w 0 "1").andThen fun _ =>
  let (records, _) := w.bootstrapRead
  match records with
  | [] => ⟨[.readN 1], .error (.panic (.indexOutOfRange 0 0))⟩
  | r0 :: _ =>
    let position := r0.Position
    match w.teardown 0 with
    | some err =>
      ⟨[.readN 1, .srcTeardown],
        .error (.panic (.err (.errorf "error tearing down: %v" err "")))⟩
    | none =>
      (⟨[.readN 1, .srcTeardown], .ok ()⟩ : Step Unit).andThen fun _ =>
      resume w position

/-! ## Vocabulary of the statements -/

/-- The path `insertRows` passes to `writeRecords`. -/
def scriptPath : String := "./scripts/insert_named_employees.sh"

/-- The positions passed to `Open`, in call order. -/
def srcOpens (t : List Event) : List Position :=
  t.filterMap fun
    | .srcOpen p => some p
    | _ => none

/-- Number of `ReadN` calls made by the drain loop in a trace. -/
def drainReadCalls (t : List Event) : Nat :=
  t.count (.readN defaultRecordsToInsert)

/-- Reads that return the given batches without error. -/
def okReads (batches : List (List Record)) : List (List Record × Option Error) :=
  batches.map fun b => (b, none)

/-- Total number of records in a list of batches. -/
def sumLen (batches : List (List Record)) : Int :=
  ((batches.map List.length).sum : Nat)

/-- A string that is a decimal integer: an optional sign followed by one or
more decimal digits. -/
def isDecimalInteger (s : String) : Bool :=
  let cs := s.toList
  let body := if cs.head? = some '+' ∨ cs.head? = some '-' then cs.tail else cs
  !body.isEmpty && body.all Char.isDigit

/-- The run ended with a non-zero exit code. -/
def exitsNonZero {α : Type} (r : Except Abort α) : Bool :=
  match exitCode r with
  | some c => c != 0
  | none => false

/-- The piece returned instead of aborting. -/
def Step.returns {α : Type} (s : Step α) : Bool :=
  match s.result with
  | .ok _ => true
  | .error _ => false

/-- Events of the measured part of `main`: the start line and the `ReadN`
calls of the drain loop. -/
def isDrainEvent (ev : Event) : Bool :=
  ev == .startingToReadRecords || ev == .readN defaultRecordsToInsert

/-! ## Sample runs -/

/-- A record used in the sample runs. -/
def sampleRecord : Record := ⟨some [1, 2], 7⟩

/-- A run in which every collaborator succeeds: the record count asked for is
3 and the source delivers two batches of two records. -/
def calmWorld : World where
  args := ["harness", "3"]
  parseConfig := fun _ => none
  openResult := fun _ _ => none
  combinedOutput := fun _ _ => ("done", none)
  insertDuration := fun _ => 5
  bootstrapRead := ([sampleRecord], none)
  teardown := fun _ => none
  reads := [([sampleRecord, sampleRecord], none), ([sampleRecord, sampleRecord], none)]
  sinceStart := fun k => 1000 * (k + 1)
  duration := 5000

/-- The calm run, except that the script fails when asked for the benchmark
workload. -/
def failedScriptWorld : World :=
  { calmWorld with
    combinedOutput := fun k _ =>
      if k = 1 then ("cannot connect", some (.execError 1)) else ("done", none) }

/-- The calm run with the record-count argument `abc`. -/
def nonNumericWorld : World := { calmWorld with args := ["harness", "abc"] }

/-- The calm run without a record-count argument. -/
def noArgWorld : World := { calmWorld with args := ["harness"] }

/-- The calm run, except that the teardown after the bootstrap read fails. -/
def failedTeardownWorld : World :=
  { calmWorld with teardown := fun k => if k = 0 then some (.sourceError 9) else none }

/-- The calm run, except that the deferred teardown fails. -/
def failedDeferredTeardownWorld : World :=
  { calmWorld with teardown := fun k => if k = 1 then some (.sourceError 9) else none }

/-- The calm run on a clock too coarse to see any time pass. -/
def coarseClockWorld : World :=
  { calmWorld with sinceStart := fun _ => 0, duration := 0 }

/-- Three batches whose second takes the count from 7 to 100007, across the
first multiple of the reporting interval. -/
def crossingBatches : List (List Record) :=
  [List.replicate 7 sampleRecord, List.replicate 100000 sampleRecord,
    List.replicate 5 sampleRecord]

/-- A batch of 10001 records, one more than `defaultBatchSize`. -/
def oversizedBatch : List Record := List.replicate 10001 sampleRecord

/-! ## The drain loop -/

theorem sumLen_nil : sumLen [] = 0 := by simp [sumLen]

theorem sumLen_cons (b : List Record) (bs : List (List Record)) :
    sumLen (b :: bs) = (b.length : Int) + sumLen bs := by
  simp [sumLen]

theorem sumLen_nonneg (bs : List (List Record)) : 0 ≤ sumLen bs := by
  unfold sumLen
  exact Int.natCast_nonneg _

theorem drainLoop_done (w : World) (target : Int) (rs : List (List Record × Option Error))
    (k : Nat) (i : Int) (h : ¬ i < target) : drainLoop w target rs k i = ⟨[], .ok i⟩ := by
  cases rs with
  | nil => simp [drainLoop, h]
  | cons r rest => obtain ⟨recs, err⟩ := r; simp [drainLoop, h]

theorem drainLoop_nil_blocked (w : World) (target : Int) (k : Nat) (i : Int) (h : i < target) :
    drainLoop w target [] k i = ⟨[.readN defaultRecordsToInsert], .error .blocked⟩ := by
  simp [drainLoop, h]

theorem drainLoop_cons_result (w : World) (target : Int) (recs : List Record)
    (rest : List (List Record × Option Error)) (k : Nat) (i : Int) (h : i < target) :
    (drainLoop w target ((recs, none) :: rest) k i).result =
      (drainLoop w target rest (k + 1) (i + (recs.length : Int))).result := by
  simp [drainLoop, h]

theorem drainLoop_cons_trace (w : World) (target : Int) (recs : List Record)
    (rest : List (List Record × Option Error)) (k : Nat) (i : Int) (h : i < target) :
    (drainLoop w target ((recs, none) :: rest) k i).trace =
      [Event.readN defaultRecordsToInsert] ++
        (if Int.tmod i (10 * defaultBatchSize) = 0 then
          [Event.totalCount i (w.sinceStart k) (mathRound (fdiv i (w.sinceStart k)))]
         else []) ++
        (drainLoop w target rest (k + 1) (i + (recs.length : Int))).trace := by
  simp [drainLoop, h]

theorem drainReadCalls_cons_trace (w : World) (target : Int) (recs : List Record)
    (rest : List (List Record × Option Error)) (k : Nat) (i : Int) (h : i < target) :
    drainReadCalls (drainLoop w target ((recs, none) :: rest) k i).trace =
      drainReadCalls (drainLoop w target rest (k + 1) (i + (recs.length : Int))).trace + 1 := by
  rw [drainLoop_cons_trace w target recs rest k i h]
  unfold drainReadCalls
  split <;> simp [List.count_cons, Nat.add_comm]

/-- The drain loop started at counter `i` on reads that return without error:
the number `n` of reads that returned, the counter before each of them, and the
way the loop ends. -/
theorem drainLoop_spec (w : World) (target : Int) :
    ∀ (batches : List (List Record)) (k : Nat) (i : Int),
      ∃ n, n ≤ batches.length ∧
        (∀ m, m < n → i + sumLen (batches.take m) < target) ∧
        ((target ≤ i + sumLen (batches.take n) ∧
            (drainLoop w target (okReads batches) k i).result =
              .ok (i + sumLen (batches.take n)) ∧
            drainReadCalls (drainLoop w target (okReads batches) k i).trace = n) ∨
          (n = batches.length ∧ i + sumLen batches < target ∧
            (drainLoop w target (okReads batches) k i).result = .error .blocked ∧
            drainReadCalls (drainLoop w target (okReads batches) k i).trace = n + 1)) := by
  intro batches
  induction batches with
  | nil =>
    intro k i
    refine ⟨0, le_refl _, fun m hm => absurd hm (Nat.not_lt_zero m), ?_⟩
    by_cases h : i < target
    · right
      simp [okReads, drainLoop_nil_blocked w target k i h, sumLen_nil, h, drainReadCalls]
    · left
      simp [okReads, drainLoop_done w target [] k i h, sumLen_nil, drainReadCalls]
      omega
  | cons b bs ih =>
    intro k i
    by_cases h : i < target
    · obtain ⟨n, hn, hlt, hend⟩ := ih (k + 1) (i + (b.length : Int))
      have hres := drainLoop_cons_result w target b (okReads bs) k i h
      have hcnt := drainReadCalls_cons_trace w target b (okReads bs) k i h
      have hok : okReads (b :: bs) = (b, none) :: okReads bs := by simp [okReads]
      refine ⟨n + 1, by simpa using hn, ?_, ?_⟩
      · intro m hm
        cases m with
        | zero => simpa [sumLen_nil] using h
        | succ m =>
          have := hlt m (by omega)
          simp only [List.take_succ_cons, sumLen_cons]
          omega
      · rcases hend with ⟨h1, h2, h3⟩ | ⟨h1, h2, h3, h4⟩
        · left
          simp only [List.take_succ_cons, sumLen_cons, hok, hres, hcnt]
          refine ⟨by omega, ?_, by omega⟩
          rw [h2]; congr 1; omega
        · right
          simp only [sumLen_cons, hok, hres, hcnt, List.length_cons]
          refine ⟨by omega, by omega, h3, by omega⟩
    · refine ⟨0, Nat.zero_le _, fun m hm => absurd hm (Nat.not_lt_zero m), ?_⟩
      left
      simp [drainLoop_done w target (okReads (b :: bs)) k i h, sumLen_nil, drainReadCalls]
      omega

/-- C2: on reads that return without error the drain loop stops at the first
read after which the sum of the batch lengths reaches the target. With `n` the
number of reads that returned: before each of them the sum of the lengths read
so far was below the target; either the loop exits with its counter equal to
the sum of the first `n` lengths, which is at least the target, after exactly
`n` calls, or the batches are used up below the target and the loop is waiting
in call `n + 1`. -/
theorem drainLoop_stops_at_first_reach (w : World) (target : Int)
    (batches : List (List Record)) :
    ∃ n, n ≤ batches.length ∧
      (∀ m, m < n → sumLen (batches.take m) < target) ∧
      ((target ≤ sumLen (batches.take n) ∧
          (drainLoop w target (okReads batches) 0 0).result = .ok (sumLen (batches.take n)) ∧
          drainReadCalls (drainLoop w target (okReads batches) 0 0).trace = n) ∨
        (n = batches.length ∧ sumLen batches < target ∧
          (drainLoop w target (okReads batches) 0 0).result = .error .blocked ∧
          drainReadCalls (drainLoop w target (okReads batches) 0 0).trace = n + 1)) := by
  simpa using drainLoop_spec w target batches 0 0

/-- C3: with target 0 the drain loop makes no `ReadN` call, whatever the source
would return, and ends with zero records counted; the measured part of `main`
then consists of the start line and the summary, with no `ReadN` call. -/
theorem drainLoop_zero_target (w : World) (reads : List (List Record × Option Error))
    (k : Nat) :
    drainLoop w 0 reads k 0 = ⟨[], .ok 0⟩ ∧
    (∀ n, Event.readN n ∉ (measureReads w 0).trace) ∧
    (measureReads w 0).trace =
      [.startingToReadRecords, .duration w.duration,
        .performanceSummary 0 w.duration (fdiv 0 w.duration)] ∧
    (measureReads w 0).result = .ok () := by
  have h0 : drainLoop w 0 w.reads 0 0 = ⟨[], .ok 0⟩ :=
    drainLoop_done w 0 w.reads 0 0 (by decide)
  refine ⟨drainLoop_done w 0 reads k 0 (by decide), ?_, ?_, ?_⟩
  · intro n
    simp [measureReads, Step.andThen, h0]
  · simp [measureReads, Step.andThen, h0]
  · simp [measureReads, Step.andThen, h0]

/-! ## Workload generation -/

/-- The error result of `writeRecords` is the error of the script, wrapped. -/
theorem writeRecords_err (w : World) (k : Nat) (path arg : String) :
    (writeRecords w k path arg).2.2.2 = none ↔ (w.combinedOutput k arg).2 = none := by
  unfold writeRecords
  rcases h : w.combinedOutput k arg with ⟨output, _ | err⟩ <;> simp

/-- The error of `Atoi`, if any, is a `*strconv.NumError`. -/
theorem Atoi_err_cases (s : String) :
    (Atoi s).2 = none ∨ ∃ kind, (Atoi s).2 = some (.numError "Atoi" s kind) := by
  unfold Atoi
  simp only
  split
  · exact Or.inr ⟨_, rfl⟩
  · split
    · exact Or.inr ⟨_, rfl⟩
    · split
      · exact Or.inr ⟨_, rfl⟩
      · split
        · exact Or.inr ⟨_, rfl⟩
        · exact Or.inl rfl

/-- A failed script makes `insertRows` exit with code 1 after the diagnostic. -/
theorem insertRows_script_failed (w : World) (k : Nat) (arg : String) (output : String)
    (err : Error) (h : w.combinedOutput k arg = (output, some err)) :
    insertRows w k arg =
      ⟨[.runningScript arg, .execScript scriptPath arg,
          .errorExecutingScript
            (some (.errorf "error executing script: %v\nOutput: %s" err output))],
        .error (.exit 1)⟩ := by
  have hne : ¬ (some (Error.errorf "error executing script: %v\nOutput: %s" err output) =
      (Atoi arg).2) := by
    rcases Atoi_err_cases arg with h0 | ⟨kind, h0⟩ <;> rw [h0] <;> simp
  simp [insertRows, writeRecords, h, scriptPath, hne]

/-- A string `Atoi` rejects makes `insertRows` exit with code 1 even though
the script succeeded: the comparison is against the error of `Atoi`. -/
theorem insertRows_atoi_failed (w : World) (k : Nat) (arg : String) (output : String)
    (h : w.combinedOutput k arg = (output, none)) (ha : (Atoi arg).2 ≠ none) :
    insertRows w k arg =
      ⟨[.runningScript arg, .execScript scriptPath arg, .scriptOutput output,
          .errorExecutingScript none],
        .error (.exit 1)⟩ := by
  have ha2 : ¬ (none = (Atoi arg).2) := fun h => ha h.symm
  simp [insertRows, writeRecords, h, scriptPath, ha2]

/-- A successful script on a string `Atoi` accepts: `insertRows` returns the number. -/
theorem insertRows_ok (w : World) (k : Nat) (arg : String) (output : String)
    (h : w.combinedOutput k arg = (output, none)) (ha : (Atoi arg).2 = none) :
    insertRows w k arg =
      ⟨[.runningScript arg, .execScript scriptPath arg, .scriptOutput output,
          .insertionCompleted (w.insertDuration k) (fdiv (Atoi arg).1 (w.insertDuration k))],
        .ok (Atoi arg).1⟩ := by
  rcases hA : Atoi arg with ⟨n, e⟩
  rw [hA] at ha
  simp only at ha
  subst ha
  simp [insertRows, writeRecords, h, scriptPath, hA]

/-- The function `insertRows` either returns or exits with code 1. -/
theorem insertRows_result (w : World) (k : Nat) (arg : String) :
    (insertRows w k arg).result = .ok (Atoi arg).1 ∨
      (insertRows w k arg).result = .error (.exit 1) := by
  rcases h : w.combinedOutput k arg with ⟨output, _ | err⟩
  · by_cases ha : (Atoi arg).2 = none
    · left; rw [insertRows_ok w k arg output h ha]
    · right; rw [insertRows_atoi_failed w k arg output h ha]
  · right; rw [insertRows_script_failed w k arg output err h]

theorem insertRows_returns_iff (w : World) (k : Nat) (arg : String) :
    (insertRows w k arg).returns = true ↔
      (w.combinedOutput k arg).2 = none ∧ (Atoi arg).2 = none := by
  rcases h : w.combinedOutput k arg with ⟨output, _ | err⟩
  · by_cases ha : (Atoi arg).2 = none
    · simp [Step.returns, insertRows_ok w k arg output h ha, ha]
    · simp [Step.returns, insertRows_atoi_failed w k arg output h ha, ha]
  · simp [Step.returns, insertRows_script_failed w k arg output err h]

/-- The events of `insertRows` are those of the script step. -/
theorem insertRows_trace_mem (w : World) (k : Nat) (arg : String) (ev : Event)
    (h : ev ∈ (insertRows w k arg).trace) :
    ev = .runningScript arg ∨ ev = .execScript scriptPath arg ∨
      (∃ o, ev = .scriptOutput o) ∨ (∃ e, ev = .errorExecutingScript e) ∨
      (∃ d r, ev = .insertionCompleted d r) := by
  rcases hc : w.combinedOutput k arg with ⟨output, _ | err⟩
  · by_cases ha : (Atoi arg).2 = none
    · rw [insertRows_ok w k arg output hc ha] at h
      simp at h
      rcases h with h | h | h | h
      · exact Or.inl h
      · exact Or.inr (Or.inl h)
      · exact Or.inr (Or.inr (Or.inl ⟨_, h⟩))
      · exact Or.inr (Or.inr (Or.inr (Or.inr ⟨_, _, h⟩)))
    · rw [insertRows_atoi_failed w k arg output hc ha] at h
      simp at h
      rcases h with h | h | h | h
      · exact Or.inl h
      · exact Or.inr (Or.inl h)
      · exact Or.inr (Or.inr (Or.inl ⟨_, h⟩))
      · exact Or.inr (Or.inr (Or.inr (Or.inl ⟨_, h⟩)))
  · rw [insertRows_script_failed w k arg output err hc] at h
    simp at h
    rcases h with h | h | h
    · exact Or.inl h
    · exact Or.inr (Or.inl h)
    · exact Or.inr (Or.inr (Or.inr (Or.inl ⟨_, h⟩)))

/-! ## Sequencing -/

theorem andThen_of_ok {α β : Type} (s : Step α) (f : α → Step β) (a : α)
    (h : s.result = .ok a) :
    s.andThen f = ⟨s.trace ++ (f a).trace, (f a).result⟩ := by
  simp [Step.andThen, h]

theorem andThen_of_error {α β : Type} (s : Step α) (f : α → Step β) (e : Abort)
    (h : s.result = .error e) :
    s.andThen f = ⟨s.trace, .error e⟩ := by
  simp [Step.andThen, h]

theorem andThen_trace_mem {α β : Type} (s : Step α) (f : α → Step β) (ev : Event)
    (h : ev ∈ (s.andThen f).trace) :
    ev ∈ s.trace ∨ ∃ a, s.result = .ok a ∧ ev ∈ (f a).trace := by
  rcases hr : s.result with e | a
  · rw [andThen_of_error s f e hr] at h; exact Or.inl h
  · rw [andThen_of_ok s f a hr] at h
    rcases List.mem_append.mp h with h | h
    · exact Or.inl h
    · exact Or.inr ⟨a, rfl, h⟩

/-! ## The run up to the second `Open` -/

theorem newSource_trace_mem (w : World) (k : Nat) (pos : Position) (ev : Event)
    (h : ev ∈ (newSource w k pos).trace) :
    ev = .creatingNewPosition pos ∨ ev = .openingTheConnector ∨ ev = .srcOpen pos := by
  unfold newSource at h
  split at h
  · simp at h; exact Or.inl h
  · split at h <;> simpa using h

/-- The function `newSource` returns or panics. -/
theorem newSource_result (w : World) (k : Nat) (pos : Position) :
    (newSource w k pos).result = .ok () ∨ ∃ v, (newSource w k pos).result = .error (.panic v) := by
  unfold newSource
  split
  · exact Or.inr ⟨_, rfl⟩
  · split
    · exact Or.inr ⟨_, rfl⟩
    · exact Or.inl rfl

theorem newSource_ok (w : World) (k : Nat) (pos : Position) (hp : w.parseConfig k = none)
    (ho : w.openResult k pos = none) :
    newSource w k pos =
      ⟨[.creatingNewPosition pos, .openingTheConnector, .srcOpen pos], .ok ()⟩ := by
  simp [newSource, hp, ho]

theorem srcOpens_newSource (w : World) (k : Nat) (pos : Position) :
    srcOpens (newSource w k pos).trace = if w.parseConfig k = none then [pos] else [] := by
  unfold newSource
  rcases hp : w.parseConfig k with _ | e
  · rcases ho : w.openResult k pos with _ | e <;> simp [srcOpens]
  · simp [srcOpens]

theorem srcOpens_append (s t : List Event) : srcOpens (s ++ t) = srcOpens s ++ srcOpens t := by
  simp [srcOpens, List.filterMap_append]

theorem srcOpens_eq_nil (t : List Event) (h : ∀ p, Event.srcOpen p ∉ t) : srcOpens t = [] := by
  induction t with
  | nil => rfl
  | cons ev t ih =>
    have h1 : ∀ p, Event.srcOpen p ∉ t := fun p hp => h p (List.mem_cons_of_mem _ hp)
    have h2 : ∀ p, ev ≠ Event.srcOpen p := fun p hp => h p (hp ▸ List.mem_cons_self _ _)
    have ih1 := ih h1
    unfold srcOpens at ih1 ⊢
    cases ev <;> simp_all

theorem srcOpens_insertRows (w : World) (k : Nat) (arg : String) :
    srcOpens (insertRows w k arg).trace = [] := by
  apply srcOpens_eq_nil
  intro p hp
  rcases insertRows_trace_mem w k arg _ hp with h | h | ⟨_, h⟩ | ⟨_, h⟩ | ⟨_, _, h⟩ <;> cases h

/-- The events of the drain loop are `ReadN` calls with the constant argument
and progress lines. -/
theorem drainLoop_trace_mem (w : World) (target : Int) :
    ∀ (reads : List (List Record × Option Error)) (k : Nat) (i : Int) (ev : Event),
      ev ∈ (drainLoop w target reads k i).trace →
        ev = .readN defaultRecordsToInsert ∨
          ∃ c e, ev = .totalCount c e (mathRound (fdiv c e)) := by
  intro reads
  induction reads with
  | nil =>
    intro k i ev h
    unfold drainLoop at h
    split at h <;> simp at h
    exact Or.inl h
  | cons r rest ih =>
    intro k i ev h
    obtain ⟨recs, err⟩ := r
    by_cases hlt : i < target
    · rcases err with _ | e
      · rw [drainLoop_cons_trace w target recs rest k i hlt] at h
        simp only [List.mem_append, List.mem_singleton] at h
        rcases h with (h | h) | h
        · exact Or.inl h
        · split at h
          · simp at h; exact Or.inr ⟨_, _, h⟩
          · simp at h
        · exact ih _ _ _ h
      · simp [drainLoop, hlt] at h
        exact Or.inl h
    · rw [drainLoop_done w target _ k i hlt] at h
      simp at h

theorem measureReads_trace_mem (w : World) (target : Int) (ev : Event)
    (h : ev ∈ (measureReads w target).trace) :
    ev = .startingToReadRecords ∨ ev = .readN defaultRecordsToInsert ∨
      (∃ c e, ev = .totalCount c e (mathRound (fdiv c e))) ∨
      ev = .duration w.duration ∨
      ev = .performanceSummary target w.duration (fdiv target w.duration) := by
  unfold measureReads at h
  rcases andThen_trace_mem _ _ _ h with h | ⟨_, _, h⟩
  · simp at h; exact Or.inl h
  · rcases andThen_trace_mem _ _ _ h with h | ⟨_, _, h⟩
    · rcases drainLoop_trace_mem w target _ _ _ _ h with h | h
      · exact Or.inr (Or.inl h)
      · exact Or.inr (Or.inr (Or.inl h))
    · simp at h
      rcases h with h | h
      · exact Or.inr (Or.inr (Or.inr (Or.inl h)))
      · exact Or.inr (Or.inr (Or.inr (Or.inr h)))

theorem withDeferredTeardown_trace_mem (w : World) (body : Step Unit) (ev : Event)
    (h : ev ∈ (withDeferredTeardown w body).trace) :
    ev ∈ body.trace ∨ ev = .srcTeardown ∨ ∃ e, ev = .errorTearingDown e := by
  unfold withDeferredTeardown at h
  split at h
  · exact Or.inl h
  · exact Or.inl h
  · split at h
    · simp at h
      rcases h with h | h | h
      · exact Or.inl h
      · exact Or.inr (Or.inl h)
      · exact Or.inr (Or.inr ⟨_, h⟩)
    · simp at h
      rcases h with h | h
      · exact Or.inl h
      · exact Or.inr (Or.inl h)

theorem srcOpens_withDeferredTeardown_measureReads (w : World) (target : Int) :
    srcOpens (withDeferredTeardown w (measureReads w target)).trace = [] := by
  apply srcOpens_eq_nil
  intro p hp
  rcases withDeferredTeardown_trace_mem w _ _ hp with h | h | ⟨_, h⟩
  · rcases measureReads_trace_mem w target _ h with h | h | ⟨_, _, h⟩ | h | h <;> cases h
  · cases h
  · cases h

/-- The run once the bootstrap has gone through: the bootstrap events, then `resume`. -/
theorem main_bootstrapped (w : World) (r0 : Record) (rest : List Record) (e : Option Error)
    (hsrc : (newSource w 0 none).result = .ok ())
    (hgen : (insertRows w 0 "1").returns = true)
    (hread : w.bootstrapRead = (r0 :: rest, e))
    (htd : w.teardown 0 = none) :
    main w =
      ⟨(newSource w 0 none).trace ++ ((insertRows w 0 "1").trace ++
          ([.readN 1, .srcTeardown] ++ (resume w r0.Position).trace)),
        (resume w r0.Position).result⟩ := by
  have hgen1 : (insertRows w 0 "1").result = .ok (Atoi "1").1 := by
    rcases insertRows_result w 0 "1" with h | h
    · exact h
    · simp [Step.returns, h] at hgen
  unfold main
  rw [andThen_of_ok _ _ () hsrc]
  rw [andThen_of_ok _ _ _ hgen1]
  simp [hread, htd, Step.andThen]

theorem newSource_parseConfig_of_ok (w : World) (k : Nat) (pos : Position)
    (h : (newSource w k pos).returns = true) : w.parseConfig k = none := by
  unfold newSource at h
  rcases hp : w.parseConfig k with _ | e
  · rfl
  · simp [hp, Step.returns] at h

theorem result_of_returns (s : Step Unit) (h : s.returns = true) : s.result = .ok () := by
  unfold Step.returns at h
  split at h
  · assumption
  · cases h

theorem insertRows_result_of_returns (w : World) (k : Nat) (arg : String)
    (h : (insertRows w k arg).returns = true) :
    (insertRows w k arg).result = .ok (Atoi arg).1 := by
  rcases insertRows_result w k arg with h1 | h1
  · exact h1
  · simp [Step.returns, h1] at h

theorem insertRows_result_of_not_returns (w : World) (k : Nat) (arg : String)
    (h : (insertRows w k arg).returns = false) :
    (insertRows w k arg).result = .error (.exit 1) := by
  rcases insertRows_result w k arg with h1 | h1
  · simp [Step.returns, h1] at h
  · exact h1

/-- When the workload generation of `resume` fails the run ends there. -/
theorem resume_of_insertRows_failed (w : World) (position : Position)
    (h : (insertRows w 1 (recordsToInsertArg w)).returns = false) :
    resume w position = ⟨(insertRows w 1 (recordsToInsertArg w)).trace, .error (.exit 1)⟩ := by
  unfold resume
  exact andThen_of_error _ _ _ (insertRows_result_of_not_returns w 1 _ h)

/-- When the workload generation of `resume` succeeds the source is reopened
and the measured part runs with the parsed number as target. -/
theorem resume_of_insertRows_ok (w : World) (position : Position)
    (h : (insertRows w 1 (recordsToInsertArg w)).returns = true) :
    resume w position =
      ⟨(insertRows w 1 (recordsToInsertArg w)).trace ++
          ((newSource w 1 position).andThen fun _ =>
            withDeferredTeardown w (measureReads w (Atoi (recordsToInsertArg w)).1)).trace,
        ((newSource w 1 position).andThen fun _ =>
            withDeferredTeardown w (measureReads w (Atoi (recordsToInsertArg w)).1)).result⟩ := by
  unfold resume
  exact andThen_of_ok _ _ _ (insertRows_result_of_returns w 1 _ h)

/-- C1: when the bootstrap goes through (the first source opens, the bootstrap
workload is generated, the bootstrap read returns at least one record, the
teardown succeeds) and the workload generation succeeds, `Open` is called first
with the nil position and then with the position of the first bootstrap record;
there is no other `Open` call. The second call is missing only when the second
`ParseConfig` fails, in which case `newSource` panics before `Open`. -/
theorem main_open_positions (w : World) (r0 : Record) (rest : List Record)
    (e : Option Error)
    (hsrc : (newSource w 0 none).returns = true)
    (hgen0 : (insertRows w 0 "1").returns = true)
    (hread : w.bootstrapRead = (r0 :: rest, e))
    (htd : w.teardown 0 = none)
    (hgen1 : (insertRows w 1 (recordsToInsertArg w)).returns = true) :
    srcOpens (main w).trace =
      if w.parseConfig 1 = none then [none, r0.Position] else [none] := by
  rw [main_bootstrapped w r0 rest e (result_of_returns _ hsrc) hgen0 hread htd,
    resume_of_insertRows_ok w _ hgen1]
  have hp0 := newSource_parseConfig_of_ok w 0 none hsrc
  have hb : srcOpens [Event.readN 1, Event.srcTeardown] = [] := rfl
  simp only [srcOpens_append, srcOpens_newSource, srcOpens_insertRows, hp0]
  rcases newSource_result w 1 r0.Position with h | ⟨v, h⟩
  · rw [andThen_of_ok _ _ () h]
    simp only [srcOpens_append, srcOpens_newSource,
      srcOpens_withDeferredTeardown_measureReads]
    by_cases hp1 : w.parseConfig 1 = none <;> simp [hp1, hb]
  · rw [andThen_of_error _ _ _ h]
    simp only [srcOpens_newSource]
    by_cases hp1 : w.parseConfig 1 = none <;> simp [hp1, hb]

theorem newSource_no_drain (w : World) (k : Nat) (pos : Position) :
    ∀ ev ∈ (newSource w k pos).trace, isDrainEvent ev = false := by
  intro ev h
  rcases newSource_trace_mem w k pos ev h with h | h | h <;> subst h <;> rfl

theorem insertRows_no_drain (w : World) (k : Nat) (arg : String) :
    ∀ ev ∈ (insertRows w k arg).trace, isDrainEvent ev = false := by
  intro ev h
  rcases insertRows_trace_mem w k arg ev h with h | h | ⟨_, h⟩ | ⟨_, h⟩ | ⟨_, _, h⟩ <;>
    subst h <;> rfl

/-- When either workload generation fails, the run ends with a non-zero exit
code without having entered the measured part. -/
theorem main_aborts_before_drain (w : World)
    (h : (insertRows w 0 "1").returns = false ∨
      (insertRows w 1 (recordsToInsertArg w)).returns = false) :
    exitsNonZero (main w).result = true ∧ ∀ ev ∈ (main w).trace, isDrainEvent ev = false := by
  rcases newSource_result w 0 none with hs | ⟨v, hs⟩
  · by_cases h0 : (insertRows w 0 "1").returns = true
    · have h1 : (insertRows w 1 (recordsToInsertArg w)).returns = false := by
        rcases h with h | h
        · rw [h0] at h; cases h
        · exact h
      rcases hr : w.bootstrapRead with ⟨_ | ⟨r0, rest⟩, e⟩
      · have hm : main w =
            ⟨(newSource w 0 none).trace ++ ((insertRows w 0 "1").trace ++ [.readN 1]),
              .error (.panic (.indexOutOfRange 0 0))⟩ := by
          unfold main
          rw [andThen_of_ok _ _ () hs,
            andThen_of_ok _ _ _ (insertRows_result_of_returns w 0 _ h0)]
          simp [hr]
        rw [hm]
        refine ⟨rfl, ?_⟩
        intro ev hev
        simp only [List.mem_append, List.mem_singleton] at hev
        rcases hev with hev | hev | hev
        · exact newSource_no_drain w 0 none ev hev
        · exact insertRows_no_drain w 0 _ ev hev
        · subst hev; rfl
      · rcases ht : w.teardown 0 with _ | te
        · rw [main_bootstrapped w r0 rest e hs h0 hr ht, resume_of_insertRows_failed w _ h1]
          refine ⟨rfl, ?_⟩
          intro ev hev
          simp only [List.mem_append, List.mem_cons, List.mem_singleton,
            List.not_mem_nil, or_false] at hev
          rcases hev with hev | hev | (hev | hev) | hev
          · exact newSource_no_drain w 0 none ev hev
          · exact insertRows_no_drain w 0 _ ev hev
          · subst hev; rfl
          · subst hev; rfl
          · exact insertRows_no_drain w 1 _ ev hev
        · have hm : main w =
              ⟨(newSource w 0 none).trace ++
                  ((insertRows w 0 "1").trace ++ [.readN 1, .srcTeardown]),
                .error (.panic (.err (.errorf "error tearing down: %v" te "")))⟩ := by
            unfold main
            rw [andThen_of_ok _ _ () hs,
              andThen_of_ok _ _ _ (insertRows_result_of_returns w 0 _ h0)]
            simp [hr, ht]
          rw [hm]
          refine ⟨rfl, ?_⟩
          intro ev hev
          simp only [List.mem_append, List.mem_cons, List.mem_singleton,
            List.not_mem_nil, or_false] at hev
          rcases hev with hev | hev | hev | hev
          · exact newSource_no_drain w 0 none ev hev
          · exact insertRows_no_drain w 0 _ ev hev
          · subst hev; rfl
          · subst hev; rfl
    · have h0f : (insertRows w 0 "1").returns = false := by
        cases hb : (insertRows w 0 "1").returns
        · rfl
        · exact absurd hb h0
      have hm : main w =
          ⟨(newSource w 0 none).trace ++ (insertRows w 0 "1").trace, .error (.exit 1)⟩ := by
        unfold main
        rw [andThen_of_ok _ _ () hs,
          andThen_of_error _ _ _ (insertRows_result_of_not_returns w 0 _ h0f)]
      rw [hm]
      refine ⟨rfl, ?_⟩
      intro ev hev
      rcases List.mem_append.mp hev with hev | hev
      · exact newSource_no_drain w 0 none ev hev
      · exact insertRows_no_drain w 0 _ ev hev
  · have hm : main w = ⟨(newSource w 0 none).trace, .error (.panic v)⟩ := by
      unfold main
      rw [andThen_of_error _ _ _ hs]
    rw [hm]
    exact ⟨rfl, newSource_no_drain w 0 none⟩

/-! ## Strings that are not decimal integers -/

theorem parseUintLoop_error_of_nondigit :
    ∀ (cs : List Char) (n : Nat), cs.all Char.isDigit = false →
      ∃ e, parseUintLoop cs n = .error e := by
  intro cs
  induction cs with
  | nil => intro n h; simp at h
  | cons c cs ih =>
    intro n h
    unfold parseUintLoop
    by_cases hc : c.isDigit = true
    · simp only [hc, if_true]
      split
      · exact ⟨_, rfl⟩
      · split
        · exact ⟨_, rfl⟩
        · apply ih
          simpa [hc] using h
    · simp only [hc]
      exact ⟨_, rfl⟩

theorem ParseUint_of_not_digits (body : List Char)
    (h : body = [] ∨ body.all Char.isDigit = false) :
    ParseUint body = (0, some .invalid) ∨ ParseUint body = (maxUint64, some .outOfRange) := by
  unfold ParseUint
  by_cases hb : body = []
  · simp [hb]
  · have hnd : body.all Char.isDigit = false := by
      rcases h with h | h
      · exact absurd h hb
      · exact h
    obtain ⟨e, he⟩ := parseUintLoop_error_of_nondigit body 0 hnd
    simp only [hb, if_false, he]
    cases e
    · exact Or.inl rfl
    · exact Or.inr rfl

/-- A string that is not a decimal integer is rejected by `Atoi`. -/
theorem Atoi_error_of_not_decimal (s : String) (h : isDecimalInteger s = false) :
    (Atoi s).2 ≠ none := by
  unfold isDecimalInteger at h
  simp only [Bool.and_eq_false_imp, Bool.not_eq_true', List.isEmpty_eq_false] at h
  unfold Atoi
  simp only
  split
  · simp
  · have hbody : ParseUint (if s.toList.head? = some '+' ∨ s.toList.head? = some '-'
          then s.toList.tail else s.toList) = (0, some .invalid) ∨
        ParseUint (if s.toList.head? = some '+' ∨ s.toList.head? = some '-'
          then s.toList.tail else s.toList) = (maxUint64, some .outOfRange) := by
      apply ParseUint_of_not_digits
      by_cases hb : (if s.toList.head? = some '+' ∨ s.toList.head? = some '-'
          then s.toList.tail else s.toList) = []
      · exact Or.inl hb
      · exact Or.inr (h hb)
    rcases hbody with hb | hb
    · rw [hb]; simp
    · rw [hb]
      simp only
      have ha : maxUint64 ≥ 2 ^ 63 := by decide
      have hc : maxUint64 > 2 ^ 63 := by decide
      split
      · simp
      · split
        · simp
        · rename_i h1 h2
          exfalso
          by_cases hneg : s.toList.head? = some '-'
          · exact h2 ⟨hneg, hc⟩
          · exact h1 ⟨hneg, ha⟩

/-- Witness of C1 on the calm run: `Open` is called with nil, then with the
position of the bootstrap record. -/
theorem main_open_positions_witness :
    srcOpens (main calmWorld).trace =
      if calmWorld.parseConfig 1 = none then [none, sampleRecord.Position] else [none] :=
  main_open_positions calmWorld sampleRecord [] none (by decide) (by decide) rfl rfl
    (by decide)

/-! ## Failed workload generation -/

theorem drainReadCalls_eq_zero (t : List Event) (h : ∀ ev ∈ t, isDrainEvent ev = false) :
    drainReadCalls t = 0 := by
  unfold drainReadCalls
  rw [List.count_eq_zero]
  intro hmem
  have := h _ hmem
  simp [isDrainEvent] at this

/-- C5: when `writeRecords` returns an error, `insertRows` ends the run with
exit code 1, whatever the record-count argument; and when that happens at one
of the two calls `main` makes (the bootstrap call with "1", the call with the
record-count argument) the run ends with a non-zero exit code and its trace has
no `ReadN` call of the drain loop, nor the line that precedes the loop. -/
theorem insertRows_failure_stops_run (w : World) (k : Nat) (recordsToInsert : String)
    (herr : (writeRecords w k scriptPath recordsToInsert).2.2.2 ≠ none) :
    (insertRows w k recordsToInsert).result = .error (.exit 1) ∧
    exitCode (insertRows w k recordsToInsert).result = some 1 ∧
    ((k = 0 ∧ recordsToInsert = "1") ∨ (k = 1 ∧ recordsToInsert = recordsToInsertArg w) →
      exitsNonZero (main w).result = true ∧
      drainReadCalls (main w).trace = 0 ∧
      Event.startingToReadRecords ∉ (main w).trace) := by
  have hscript : (w.combinedOutput k recordsToInsert).2 ≠ none :=
    fun h => herr ((writeRecords_err w k scriptPath recordsToInsert).mpr h)
  have hnot : (insertRows w k recordsToInsert).returns = false := by
    cases hb : (insertRows w k recordsToInsert).returns
    · rfl
    · exact absurd ((insertRows_returns_iff w k recordsToInsert).mp hb).1 hscript
  have hres := insertRows_result_of_not_returns w k recordsToInsert hnot
  refine ⟨hres, by rw [hres]; rfl, ?_⟩
  intro hsite
  have hfail : (insertRows w 0 "1").returns = false ∨
      (insertRows w 1 (recordsToInsertArg w)).returns = false := by
    rcases hsite with ⟨hk, ha⟩ | ⟨hk, ha⟩
    · subst hk; subst ha; exact Or.inl hnot
    · subst hk; subst ha; exact Or.inr hnot
  obtain ⟨hexit, hnodrain⟩ := main_aborts_before_drain w hfail
  refine ⟨hexit, drainReadCalls_eq_zero _ hnodrain, ?_⟩
  intro hmem
  have := hnodrain _ hmem
  simp [isDrainEvent] at this

/-- Witness of C5: the script fails at the benchmark workload; the run exits
with a non-zero code without any read of the drain loop. -/
theorem insertRows_failure_stops_run_witness :
    (insertRows failedScriptWorld 1 "3").result = .error (.exit 1) ∧
    exitsNonZero (main failedScriptWorld).result = true ∧
    drainReadCalls (main failedScriptWorld).trace = 0 :=
  have h := insertRows_failure_stops_run failedScriptWorld 1 "3" (by decide)
  ⟨h.1, (h.2.2 (Or.inr ⟨rfl, by decide⟩)).1, (h.2.2 (Or.inr ⟨rfl, by decide⟩)).2.1⟩

/-! ## The record-count argument -/

/-- Counterexample to C9 as stated: with the argument `abc`, which is not a
decimal integer, the workload generator is run with `abc` before the run ends
with exit code 1. -/
theorem nonNumeric_argument_reaches_generator :
    isDecimalInteger "abc" = false ∧
    (main nonNumericWorld).trace =
      [.creatingNewPosition none, .openingTheConnector, .srcOpen none,
        .runningScript "1", .execScript scriptPath "1", .scriptOutput "done",
        .insertionCompleted 5 (.quot 1 5), .readN 1, .srcTeardown,
        .runningScript "abc", .execScript scriptPath "abc", .scriptOutput "done",
        .errorExecutingScript none] ∧
    exitCode (main nonNumericWorld).result = some 1 := by
  decide

/-- The first two events of `insertRows` are the announcement and the run of
the script with the argument as given. -/
theorem insertRows_trace_starts (w : World) (k : Nat) (arg : String) :
    ∃ rest, (insertRows w k arg).trace =
      .runningScript arg :: .execScript scriptPath arg :: rest := by
  rcases hc : w.combinedOutput k arg with ⟨output, _ | err⟩
  · by_cases ha : (Atoi arg).2 = none
    · rw [insertRows_ok w k arg output hc ha]; exact ⟨_, rfl⟩
    · rw [insertRows_atoi_failed w k arg output hc ha]; exact ⟨_, rfl⟩
  · rw [insertRows_script_failed w k arg output err hc]; exact ⟨_, rfl⟩

theorem andThen_trace_starts {α β : Type} (s : Step α) (f : α → Step β) :
    ∃ rest, (s.andThen f).trace = s.trace ++ rest := by
  rcases hr : s.result with e | a
  · rw [andThen_of_error s f e hr]; exact ⟨[], by simp⟩
  · rw [andThen_of_ok s f a hr]; exact ⟨_, rfl⟩

/-- C9, amended: a record-count argument that is not a decimal integer is not
checked before workload generation: although `Atoi` rejects it, `insertRows`
runs the script with the argument as given, and in a run whose bootstrap has
gone through that script run follows the bootstrap teardown at once. Without an
argument the generator is asked for "1000000" records and the drain target is
1000000. -/
theorem nonDecimal_argument_reaches_generation (w : World) :
    (1 < w.args.length → isDecimalInteger (w.args.getD 1 "") = false →
      recordsToInsertArg w = w.args.getD 1 "" ∧
      (Atoi (w.args.getD 1 "")).2 ≠ none ∧
      (∃ rest, (insertRows w 1 (recordsToInsertArg w)).trace =
        .runningScript (w.args.getD 1 "") ::
          .execScript scriptPath (w.args.getD 1 "") :: rest) ∧
      (∀ r0 rest e, (newSource w 0 none).returns = true →
        (insertRows w 0 "1").returns = true → w.bootstrapRead = (r0 :: rest, e) →
        w.teardown 0 = none →
          ∃ later, (main w).trace =
            (newSource w 0 none).trace ++ ((insertRows w 0 "1").trace ++
              ([.readN 1, .srcTeardown] ++
                (.runningScript (w.args.getD 1 "") ::
                  .execScript scriptPath (w.args.getD 1 "") :: later))))) ∧
    (w.args.length ≤ 1 →
      recordsToInsertArg w = "1000000" ∧
      Atoi "1000000" = (1000000, none) ∧
      ∀ position, resume w position =
        (insertRows w 1 "1000000").andThen fun _ =>
          (newSource w 1 position).andThen fun _ =>
            withDeferredTeardown w (measureReads w 1000000)) := by
  constructor
  · intro hlen hdec
    have harg : recordsToInsertArg w = w.args.getD 1 "" := by
      simp [recordsToInsertArg, hlen]
    obtain ⟨rest1, hrest1⟩ := insertRows_trace_starts w 1 (w.args.getD 1 "")
    refine ⟨harg, Atoi_error_of_not_decimal _ hdec, ⟨rest1, by rw [harg]; exact hrest1⟩, ?_⟩
    intro r0 rest e hsrc hgen hread htd
    rw [main_bootstrapped w r0 rest e (result_of_returns _ hsrc) hgen hread htd]
    have hres : ∃ later, (resume w r0.Position).trace =
        (insertRows w 1 (recordsToInsertArg w)).trace ++ later := by
      unfold resume
      exact andThen_trace_starts _ _
    obtain ⟨later, hlater⟩ := hres
    refine ⟨rest1 ++ later, ?_⟩
    simp only [hlater, harg, hrest1, List.cons_append]
  · intro hlen
    have harg : recordsToInsertArg w = "1000000" := by
      have : ¬ (1 < w.args.length) := by omega
      simp [recordsToInsertArg, this, defaultRecordsToInsertStr]
    have hatoi : Atoi "1000000" = (1000000, none) := by decide
    refine ⟨harg, hatoi, ?_⟩
    intro position
    unfold resume
    simp only [harg]
    rcases insertRows_result w 1 "1000000" with h | h
    · rw [andThen_of_ok _ _ _ h, andThen_of_ok _ _ _ h, hatoi]
    · rw [andThen_of_error _ _ _ h, andThen_of_error _ _ _ h]

/-- Witness of C9, amended: the argument `abc`, which `Atoi` rejects, reaches
the generator; without an argument the generator is asked for "1000000". -/
theorem nonDecimal_argument_reaches_generation_witness :
    (Atoi (nonNumericWorld.args.getD 1 "")).2 ≠ none ∧
    (∃ rest, (insertRows nonNumericWorld 1 (recordsToInsertArg nonNumericWorld)).trace =
      .runningScript (nonNumericWorld.args.getD 1 "") ::
        .execScript scriptPath (nonNumericWorld.args.getD 1 "") :: rest) ∧
    recordsToInsertArg noArgWorld = "1000000" :=
  ⟨((nonDecimal_argument_reaches_generation nonNumericWorld).1
      (by decide) (by decide)).2.1,
    ((nonDecimal_argument_reaches_generation nonNumericWorld).1
      (by decide) (by decide)).2.2.1,
    ((nonDecimal_argument_reaches_generation noArgWorld).2 (by decide)).1⟩

/-! ## Teardown errors -/

theorem withDeferredTeardown_result (w : World) (body : Step Unit) :
    (withDeferredTeardown w body).result = body.result := by
  unfold withDeferredTeardown
  split
  · rename_i h; rw [h]
  · rename_i h; rw [h]
  · split <;> rfl

theorem withDeferredTeardown_trace_of_error (w : World) (body : Step Unit) (err : Error)
    (herr : w.teardown 1 = some err) (hexit : ∀ c, body.result ≠ .error (.exit c))
    (hblocked : body.result ≠ .error .blocked) :
    (withDeferredTeardown w body).trace =
      body.trace ++ [.srcTeardown, .errorTearingDown err] := by
  unfold withDeferredTeardown
  split
  · rename_i c h; exact absurd h (hexit c)
  · rename_i h; exact absurd h hblocked
  · simp [herr]

/-- Counterexample to C10 as stated: an error of the teardown that follows the
bootstrap read stops the run there, with exit code 2, where the same run
without the error goes on and exits with code 0. -/
theorem bootstrap_teardown_error_aborts :
    (main failedTeardownWorld).trace =
      [.creatingNewPosition none, .openingTheConnector, .srcOpen none,
        .runningScript "1", .execScript scriptPath "1", .scriptOutput "done",
        .insertionCompleted 5 (.quot 1 5), .readN 1, .srcTeardown] ∧
    exitCode (main failedTeardownWorld).result = some 2 ∧
    exitCode (main calmWorld).result = some 0 := by
  decide

/-- C10, amended: an error of the deferred teardown is only printed, the
result of the run being that of the measured part whatever the teardown
returns; an error of the teardown that follows the bootstrap read makes `main`
panic, so that the run ends there with exit code 2. -/
theorem teardown_error_effects (w : World) :
    (∀ body : Step Unit, (withDeferredTeardown w body).result = body.result) ∧
    (∀ (body : Step Unit) (err : Error), w.teardown 1 = some err →
      (∀ c, body.result ≠ .error (.exit c)) → body.result ≠ .error .blocked →
      (withDeferredTeardown w body).trace =
        body.trace ++ [.srcTeardown, .errorTearingDown err]) ∧
    (∀ r0 rest e, (newSource w 0 none).returns = true →
      (insertRows w 0 "1").returns = true → w.bootstrapRead = (r0 :: rest, e) →
      (∀ err, w.teardown 0 = some err →
        (main w).result =
          .error (.panic (.err (.errorf "error tearing down: %v" err ""))) ∧
        exitCode (main w).result = some 2 ∧
        (main w).trace =
          (newSource w 0 none).trace ++
            ((insertRows w 0 "1").trace ++ [.readN 1, .srcTeardown])) ∧
      (w.teardown 0 = none → (insertRows w 1 (recordsToInsertArg w)).returns = true →
        (newSource w 1 r0.Position).returns = true →
        (main w).result = (measureReads w (Atoi (recordsToInsertArg w)).1).result)) := by
  refine ⟨withDeferredTeardown_result w, withDeferredTeardown_trace_of_error w, ?_⟩
  intro r0 rest e hsrc hgen hread
  constructor
  · intro err herr
    have hm : main w =
        ⟨(newSource w 0 none).trace ++
            ((insertRows w 0 "1").trace ++ [.readN 1, .srcTeardown]),
          .error (.panic (.err (.errorf "error tearing down: %v" err "")))⟩ := by
      unfold main
      rw [andThen_of_ok _ _ () (result_of_returns _ hsrc),
        andThen_of_ok _ _ _ (insertRows_result_of_returns w 0 _ hgen)]
      simp [hread, herr]
    rw [hm]
    exact ⟨rfl, rfl, rfl⟩
  · intro htd hgen1 hsrc1
    rw [main_bootstrapped w r0 rest e (result_of_returns _ hsrc) hgen hread htd,
      resume_of_insertRows_ok w _ hgen1,
      andThen_of_ok _ _ () (result_of_returns _ hsrc1)]
    exact withDeferredTeardown_result w _

/-- Witness of C10, amended, on the two runs with a failing teardown. -/
theorem teardown_error_effects_witness :
    exitCode (main failedTeardownWorld).result = some 2 ∧
    (main failedDeferredTeardownWorld).result =
      (measureReads failedDeferredTeardownWorld
        (Atoi (recordsToInsertArg failedDeferredTeardownWorld)).1).result :=
  ⟨(((teardown_error_effects failedTeardownWorld).2.2 sampleRecord [] none
      (by decide) (by decide) rfl).1 (.sourceError 9) rfl).2.1,
    ((teardown_error_effects failedDeferredTeardownWorld).2.2 sampleRecord [] none
      (by decide) (by decide) rfl).2 rfl (by decide) (by decide)⟩

/-! ## Where the events of a run come from -/

theorem resume_trace_mem (w : World) (position : Position) (ev : Event)
    (h : ev ∈ (resume w position).trace) :
    ev ∈ (insertRows w 1 (recordsToInsertArg w)).trace ∨
      ev ∈ (newSource w 1 position).trace ∨
      ev = .srcTeardown ∨ (∃ e, ev = .errorTearingDown e) ∨
      ev ∈ (measureReads w (Atoi (recordsToInsertArg w)).1).trace := by
  unfold resume at h
  rcases andThen_trace_mem _ _ _ h with h | ⟨n, hn, h⟩
  · exact Or.inl h
  · have hn2 : n = (Atoi (recordsToInsertArg w)).1 := by
      rcases insertRows_result w 1 (recordsToInsertArg w) with h1 | h1
      · rw [h1] at hn; cases hn; rfl
      · rw [h1] at hn; cases hn
    subst hn2
    rcases andThen_trace_mem _ _ _ h with h | ⟨_, _, h⟩
    · exact Or.inr (Or.inl h)
    · rcases withDeferredTeardown_trace_mem w _ _ h with h | h | h
      · exact Or.inr (Or.inr (Or.inr (Or.inr h)))
      · exact Or.inr (Or.inr (Or.inl h))
      · exact Or.inr (Or.inr (Or.inr (Or.inl h)))

theorem main_trace_mem (w : World) (ev : Event) (h : ev ∈ (main w).trace) :
    (∃ k pos, ev ∈ (newSource w k pos).trace) ∨
      (∃ k arg, ev ∈ (insertRows w k arg).trace) ∨
      ev = .readN 1 ∨ ev = .srcTeardown ∨ (∃ e, ev = .errorTearingDown e) ∨
      ev ∈ (measureReads w (Atoi (recordsToInsertArg w)).1).trace := by
  unfold main at h
  rcases andThen_trace_mem _ _ _ h with h | ⟨_, _, h⟩
  · exact Or.inl ⟨_, _, h⟩
  · rcases andThen_trace_mem _ _ _ h with h | ⟨_, _, h⟩
    · exact Or.inr (Or.inl ⟨_, _, h⟩)
    · rcases hr : w.bootstrapRead with ⟨_ | ⟨r0, rest⟩, e⟩
      · simp [hr] at h
        exact Or.inr (Or.inr (Or.inl h))
      · rcases ht : w.teardown 0 with _ | te
        · simp only [hr, ht] at h
          rcases andThen_trace_mem _ _ _ h with h | ⟨_, _, h⟩
          · simp at h
            rcases h with h | h
            · exact Or.inr (Or.inr (Or.inl h))
            · exact Or.inr (Or.inr (Or.inr (Or.inl h)))
          · rcases resume_trace_mem w _ ev h with h | h | h | h | h
            · exact Or.inr (Or.inl ⟨_, _, h⟩)
            · exact Or.inl ⟨_, _, h⟩
            · exact Or.inr (Or.inr (Or.inr (Or.inl h)))
            · exact Or.inr (Or.inr (Or.inr (Or.inr (Or.inl h))))
            · exact Or.inr (Or.inr (Or.inr (Or.inr (Or.inr h))))
        · simp [hr, ht] at h
          rcases h with h | h
          · exact Or.inr (Or.inr (Or.inl h))
          · exact Or.inr (Or.inr (Or.inr (Or.inl h)))

/-- Every progress line of a run is one of the drain loop. -/
theorem main_totalCount_mem (w : World) (c : Int) (e : Nat) (r : F64)
    (h : Event.totalCount c e r ∈ (main w).trace) : r = mathRound (fdiv c e) := by
  rcases main_trace_mem w _ h with ⟨k, pos, h⟩ | ⟨k, arg, h⟩ | h | h | ⟨_, h⟩ | h
  · rcases newSource_trace_mem w k pos _ h with h | h | h <;> cases h
  · rcases insertRows_trace_mem w k arg _ h with h | h | ⟨_, h⟩ | ⟨_, h⟩ | ⟨_, _, h⟩ <;>
      cases h
  · cases h
  · cases h
  · cases h
  · rcases measureReads_trace_mem w _ _ h with h | h | ⟨c1, e1, h⟩ | h | h
    · cases h
    · cases h
    · cases h; rfl
    · cases h
    · cases h

/-- Every summary of a run reports the drain target and the duration. -/
theorem main_performanceSummary_mem (w : World) (t : Int) (d : Nat) (r : F64)
    (h : Event.performanceSummary t d r ∈ (main w).trace) :
    t = (Atoi (recordsToInsertArg w)).1 ∧ d = w.duration ∧ r = fdiv t d := by
  rcases main_trace_mem w _ h with ⟨k, pos, h⟩ | ⟨k, arg, h⟩ | h | h | ⟨_, h⟩ | h
  · rcases newSource_trace_mem w k pos _ h with h | h | h <;> cases h
  · rcases insertRows_trace_mem w k arg _ h with h | h | ⟨_, h⟩ | ⟨_, h⟩ | ⟨_, _, h⟩ <;>
      cases h
  · cases h
  · cases h
  · cases h
  · rcases measureReads_trace_mem w _ _ h with h | h | ⟨c1, e1, h⟩ | h | h
    · cases h
    · cases h
    · cases h
    · cases h
    · cases h; exact ⟨rfl, rfl, rfl⟩

/-! ## The summary -/

/-- On exit the counter of the drain loop has reached the target and is the
number of records in the reads that returned. -/
theorem drainLoop_ok_count (w : World) (target : Int) :
    ∀ (reads : List (List Record × Option Error)) (k : Nat) (i j : Int),
      (drainLoop w target reads k i).result = .ok j →
        target ≤ j ∧
        j = i + sumLen ((reads.take
          (drainReadCalls (drainLoop w target reads k i).trace)).map Prod.fst) := by
  intro reads
  induction reads with
  | nil =>
    intro k i j h
    by_cases hlt : i < target
    · rw [drainLoop_nil_blocked w target k i hlt] at h; cases h
    · rw [drainLoop_done w target [] k i hlt] at h ⊢
      cases h
      simp [sumLen_nil]
      omega
  | cons r rest ih =>
    intro k i j h
    obtain ⟨recs, err⟩ := r
    by_cases hlt : i < target
    · rcases err with _ | e
      · rw [drainLoop_cons_result w target recs rest k i hlt] at h
        obtain ⟨h1, h2⟩ := ih _ _ _ h
        rw [drainReadCalls_cons_trace w target recs rest k i hlt]
        refine ⟨h1, ?_⟩
        simp only [List.take_succ_cons, List.map_cons, sumLen_cons]
        omega
      · simp [drainLoop, hlt] at h
    · rw [drainLoop_done w target _ k i hlt] at h ⊢
      cases h
      simp [sumLen_nil, drainReadCalls]
      omega

/-- Counterexample to C6 as stated: the source delivers two batches of two
records for a target of 3; the drain loop has read 4 records and the summary
reports 3. -/
theorem summary_total_differs_from_records_read :
    exitCode (main calmWorld).result = some 0 ∧
    (drainLoop calmWorld 3 calmWorld.reads 0 0).trace =
      [.readN defaultRecordsToInsert, .totalCount 0 1000 (.roundQuot 0 1000),
        .readN defaultRecordsToInsert] ∧
    exitCode (drainLoop calmWorld 3 calmWorld.reads 0 0).result = some 0 ∧
    (∀ j, (drainLoop calmWorld 3 calmWorld.reads 0 0).result = .ok j → j = 4) ∧
    Event.performanceSummary 3 5000 (.quot 3 5000) ∈ (main calmWorld).trace := by
  refine ⟨by decide, by decide, by decide, ?_, by decide⟩
  intro j hj
  have h := (drainLoop_ok_count calmWorld 3 calmWorld.reads 0 0 j hj).2
  rw [h]
  decide

/-- C6, amended: when the measured part of `main` returns, the drain loop has
exited with a counter that is the number of records read and is at least the
target; the summary that ends the trace reports the target, not the counter,
as total, and the quotient of the target by the elapsed time as rate. Every
summary line of a run of `main` is of that form, the target being the parsed
record-count argument. -/
theorem summary_reports_target (w : World) (target : Int)
    (hok : (measureReads w target).returns = true) :
    (∃ i, (drainLoop w target w.reads 0 0).result = .ok i ∧ target ≤ i ∧
      i = sumLen ((w.reads.take
        (drainReadCalls (drainLoop w target w.reads 0 0).trace)).map Prod.fst) ∧
      (measureReads w target).trace =
        .startingToReadRecords :: (drainLoop w target w.reads 0 0).trace ++
          [.duration w.duration,
            .performanceSummary target w.duration (fdiv target w.duration)]) ∧
    (∀ t d r, Event.performanceSummary t d r ∈ (main w).trace →
      t = (Atoi (recordsToInsertArg w)).1 ∧ d = w.duration ∧ r = fdiv t d) := by
  refine ⟨?_, main_performanceSummary_mem w⟩
  rcases hd : (drainLoop w target w.reads 0 0).result with e | i
  · have : (measureReads w target).returns = false := by
      simp [measureReads, Step.andThen, Step.returns, hd]
    rw [this] at hok; cases hok
  · obtain ⟨h1, h2⟩ := drainLoop_ok_count w target w.reads 0 0 i hd
    refine ⟨i, rfl, h1, ?_, ?_⟩
    · simpa using h2
    · simp [measureReads, Step.andThen, hd]

/-- Witness of C6, amended, on the calm run with target 3. -/
theorem summary_reports_target_witness :
    ∃ i, (drainLoop calmWorld 3 calmWorld.reads 0 0).result = .ok i ∧ (3 : Int) ≤ i ∧
      i = sumLen ((calmWorld.reads.take
        (drainReadCalls (drainLoop calmWorld 3 calmWorld.reads 0 0).trace)).map Prod.fst) ∧
      (measureReads calmWorld 3).trace =
        .startingToReadRecords :: (drainLoop calmWorld 3 calmWorld.reads 0 0).trace ++
          [.duration calmWorld.duration,
            .performanceSummary 3 calmWorld.duration (fdiv 3 calmWorld.duration)] :=
  (summary_reports_target calmWorld 3 (by decide)).1

/-! ## Progress lines -/

/-- The progress lines of the drain loop on reads that return without error:
one for each read before which the counter is below the target and an exact
multiple of the interval, reporting that counter. -/
theorem drainLoop_progress (w : World) (target : Int) :
    ∀ (batches : List (List Record)) (k : Nat) (i c : Int) (e : Nat) (r : F64),
      Event.totalCount c e r ∈ (drainLoop w target (okReads batches) k i).trace ↔
        ∃ m, m < batches.length ∧ c = i + sumLen (batches.take m) ∧ c < target ∧
          Int.tmod c (10 * defaultBatchSize) = 0 ∧ e = w.sinceStart (k + m) ∧
          r = mathRound (fdiv c e) := by
  intro batches
  induction batches with
  | nil =>
    intro k i c e r
    constructor
    · intro h
      unfold okReads at h
      simp only [List.map_nil] at h
      unfold drainLoop at h
      split at h <;> simp at h
    · rintro ⟨m, hm, _⟩
      simp at hm
  | cons b bs ih =>
    intro k i c e r
    have hok : okReads (b :: bs) = (b, none) :: okReads bs := by simp [okReads]
    by_cases hlt : i < target
    · rw [hok, drainLoop_cons_trace w target b (okReads bs) k i hlt]
      simp only [List.mem_append, List.mem_singleton]
      constructor
      · rintro ((h | h) | h)
        · cases h
        · split at h
          · rename_i hmod
            simp only [List.mem_singleton] at h
            cases h
            exact ⟨0, by simp, by simp [sumLen_nil], hlt, hmod, rfl, rfl⟩
          · simp at h
        · obtain ⟨m, hm, hc, hct, hmod, he, hr⟩ := (ih (k + 1) _ c e r).mp h
          refine ⟨m + 1, by simpa using hm, ?_, hct, hmod, ?_, hr⟩
          · simp only [List.take_succ_cons, sumLen_cons]; omega
          · rw [he]; congr 1; omega
      · rintro ⟨m, hm, hc, hct, hmod, he, hr⟩
        cases m with
        | zero =>
          left; right
          simp only [List.take_zero, sumLen_nil, add_zero] at hc
          subst hc
          simp only [Nat.add_zero] at he
          subst he
          subst hr
          simp [hmod]
        | succ m =>
          right
          apply (ih (k + 1) _ c e r).mpr
          refine ⟨m, by simpa using hm, ?_, hct, hmod, ?_, hr⟩
          · simp only [List.take_succ_cons, sumLen_cons] at hc; omega
          · rw [he]; congr 1; omega
    · rw [drainLoop_done w target _ k i hlt]
      constructor
      · intro h; simp at h
      · rintro ⟨m, _, hc, hct, _⟩
        have := sumLen_nonneg ((b :: bs).take m)
        omega

/-- The drain loop on three batches of 7, 100000 and 5 records with target 100010. -/
theorem drainLoop_crossing (w : World) (b1 b2 b3 : List Record) (h1 : b1.length = 7)
    (h2 : b2.length = 100000) (h3 : b3.length = 5) :
    sumLen ([b1, b2, b3].take 1) = 7 ∧
    sumLen ([b1, b2, b3].take 2) = 100007 ∧
    (drainLoop w 100010 (okReads [b1, b2, b3]) 0 0).trace =
      [.readN defaultRecordsToInsert,
        .totalCount 0 (w.sinceStart 0) (mathRound (fdiv 0 (w.sinceStart 0))),
        .readN defaultRecordsToInsert, .readN defaultRecordsToInsert] ∧
    (drainLoop w 100010 (okReads [b1, b2, b3]) 0 0).result = .ok 100012 := by
  have e1 : Int.tmod 7 100000 = 7 := by decide
  have e2 : Int.tmod 100007 100000 = 7 := by decide
  refine ⟨?_, ?_, ?_, ?_⟩
  · simp [sumLen, h1]
  · simp [sumLen, h1, h2]
  · simp [okReads, drainLoop, defaultBatchSize, h1, h2, h3, e1, e2]
  · simp [okReads, drainLoop, defaultBatchSize, h1, h2, h3]

/-- Counterexample to C7 as stated: the second read takes the count from 7 to
100007, across the multiple 100000 of the interval; the only progress line of
the drain is the one for count 0. -/
theorem crossing_without_progress_line :
    sumLen (crossingBatches.take 1) = 7 ∧
    sumLen (crossingBatches.take 2) = 100007 ∧
    (drainLoop calmWorld 100010 (okReads crossingBatches) 0 0).trace =
      [.readN defaultRecordsToInsert, .totalCount 0 1000 (.roundQuot 0 1000),
        .readN defaultRecordsToInsert, .readN defaultRecordsToInsert] ∧
    (drainLoop calmWorld 100010 (okReads crossingBatches) 0 0).result = .ok 100012 :=
  drainLoop_crossing calmWorld _ _ _ (List.length_replicate _ _)
    (List.length_replicate _ _) (List.length_replicate _ _)

/-- C7, amended: on reads that return without error a progress line is printed
at a read exactly when the count before that read is below the target and an
exact multiple of the interval `10 * defaultBatchSize`, zero included; the line
reports that count, the time elapsed at that read and their rounded quotient. -/
theorem progress_line_iff_exact_multiple (w : World) (target : Int)
    (batches : List (List Record)) (c : Int) (e : Nat) (r : F64) :
    Event.totalCount c e r ∈ (drainLoop w target (okReads batches) 0 0).trace ↔
      ∃ m, m < batches.length ∧ c = sumLen (batches.take m) ∧ c < target ∧
        Int.tmod c (10 * defaultBatchSize) = 0 ∧ e = w.sinceStart m ∧
        r = mathRound (fdiv c e) := by
  simpa using drainLoop_progress w target batches 0 0 c e r

/-! ## Rates -/

theorem fdiv_zero_not_finite (n : Int) :
    (fdiv n 0).isFinite = false ∧ (mathRound (fdiv n 0)).isFinite = false := by
  unfold fdiv
  by_cases h : n = 0 <;> simp [h, F64.isFinite, mathRound]

/-- Counterexample to C8 as stated: on a clock that shows no time elapsed the
progress line and the summary carry the result of a division by zero, NaN and
an infinity. -/
theorem zero_elapsed_rate_is_computed :
    Event.totalCount 0 0 .nan ∈ (main coarseClockWorld).trace ∧
    Event.performanceSummary 3 0 (.inf false) ∈ (main coarseClockWorld).trace ∧
    exitCode (main coarseClockWorld).result = some 0 := by
  decide

/-- C8, amended: the rate of every progress line is the rounded quotient of
the count by the elapsed time and the rate of every summary is the quotient of
the target by the duration, computed whatever the elapsed time; at elapsed
time 0 the rate printed is not a finite number, and the first progress line of
a drain with a positive target then carries NaN. -/
theorem rate_is_unguarded_quotient (w : World) :
    (∀ c e r, Event.totalCount c e r ∈ (main w).trace →
      r = mathRound (fdiv c e) ∧ (e = 0 → r.isFinite = false)) ∧
    (∀ t d r, Event.performanceSummary t d r ∈ (main w).trace →
      r = fdiv t d ∧ (d = 0 → r.isFinite = false)) ∧
    (∀ target recs rest, 0 < target → w.sinceStart 0 = 0 →
      Event.totalCount 0 0 .nan ∈ (drainLoop w target ((recs, none) :: rest) 0 0).trace) := by
  refine ⟨?_, ?_, ?_⟩
  · intro c e r h
    have hr := main_totalCount_mem w c e r h
    refine ⟨hr, ?_⟩
    intro he
    rw [hr, he]
    exact (fdiv_zero_not_finite c).2
  · intro t d r h
    have hr := (main_performanceSummary_mem w t d r h).2.2
    refine ⟨hr, ?_⟩
    intro hd
    rw [hr, hd]
    exact (fdiv_zero_not_finite t).1
  · intro target recs rest ht h0
    rw [drainLoop_cons_trace w target recs rest 0 0 ht]
    simp [h0, fdiv, mathRound, defaultBatchSize]

/-! ## Long batches -/

/-- The drain loop on one batch of 10001 records with target 10001. -/
theorem drainLoop_oversized (w : World) (b : List Record) (h : b.length = 10001) :
    defaultBatchSize < (b.length : Int) ∧
    (drainLoop w 10001 (okReads [b]) 0 0).trace =
      [.readN defaultRecordsToInsert,
        .totalCount 0 (w.sinceStart 0) (mathRound (fdiv 0 (w.sinceStart 0)))] ∧
    (drainLoop w 10001 (okReads [b]) 0 0).result = .ok 10001 := by
  refine ⟨?_, ?_, ?_⟩
  · simp [h, defaultBatchSize]
  · simp [okReads, drainLoop, defaultBatchSize, h]
  · simp [okReads, drainLoop, defaultBatchSize, h]

/-- Counterexample to C4 as stated: a read returns 10001 records, one more
than `defaultBatchSize`; all of them are counted and the loop returns. -/
theorem oversized_batch_is_counted :
    defaultBatchSize < (oversizedBatch.length : Int) ∧
    (drainLoop calmWorld 10001 (okReads [oversizedBatch]) 0 0).trace =
      [.readN defaultRecordsToInsert, .totalCount 0 1000 (.roundQuot 0 1000)] ∧
    (drainLoop calmWorld 10001 (okReads [oversizedBatch]) 0 0).result = .ok 10001 :=
  drainLoop_oversized calmWorld _ (List.length_replicate _ _)

/-- C4, amended: on reads that return without error every batch is counted in
full, whatever its length, and no length is compared with a bound. One read
made below the target adds the whole length of its batch to the counter. For
the whole loop, started at any counter `i`, with `n` the number of reads that
returned: before each of them the counter, `i` plus the lengths read so far,
was below the target; either the loop exits with counter `i` plus the sum of
the first `n` lengths, at least the target, after `n` calls, or the batches are
used up below the target and the loop waits in call `n + 1`. The trace holds
nothing but `ReadN` calls and progress lines. -/
theorem drainLoop_counts_batches_in_full (w : World) (target : Int)
    (batches : List (List Record)) (k : Nat) (i : Int) :
    (∀ (recs : List Record) (rest : List (List Record)), i < target →
      (drainLoop w target (okReads (recs :: rest)) k i).result =
        (drainLoop w target (okReads rest) (k + 1) (i + (recs.length : Int))).result) ∧
    (∃ n, n ≤ batches.length ∧
      (∀ m, m < n → i + sumLen (batches.take m) < target) ∧
      ((target ≤ i + sumLen (batches.take n) ∧
          (drainLoop w target (okReads batches) k i).result =
            .ok (i + sumLen (batches.take n)) ∧
          drainReadCalls (drainLoop w target (okReads batches) k i).trace = n) ∨
        (n = batches.length ∧ i + sumLen batches < target ∧
          (drainLoop w target (okReads batches) k i).result = .error .blocked ∧
          drainReadCalls (drainLoop w target (okReads batches) k i).trace = n + 1))) ∧
    (∀ ev ∈ (drainLoop w target (okReads batches) k i).trace,
      ev = .readN defaultRecordsToInsert ∨
        ∃ c e, ev = .totalCount c e (mathRound (fdiv c e))) := by
  refine ⟨?_, drainLoop_spec w target batches k i,
    fun ev h => drainLoop_trace_mem w target _ k i ev h⟩
  intro recs rest hlt
  have hok : okReads (recs :: rest) = (recs, none) :: okReads rest := by simp [okReads]
  rw [hok]
  exact drainLoop_cons_result w target recs (okReads rest) k i hlt

end Harness
